import Mathlib

/-!
Shallow embedding of the request-orchestration core of the
`raw-bank-transaction-enricher` repository (files `src/client.py` and
`src/models.py`), together with theorems settling the frozen claims about it.

Conventions of the embedding:
* Python `None`-able values become `Option`.
* Machine floats that only ever hold small exact quantities (timestamps,
  delays, elapsed milliseconds) are modelled as rationals.
* JSON payloads are modelled by the inductive `JVal`.
* Code that raises becomes `Except PyError`.
* The nondeterminism of the event loop (task completion order, wall-clock
  readings, the wire behaviour of every attempt of every request) is made
  explicit as parameters: a completion order list, clock readings, and an
  oracle assigning each (transaction index, attempt number) its outcome.
-/

namespace Enricher

/-- A JSON value, as decoded by `response.json()` in `client.py`.  Fields of a
JSON object are an association list; Python dict keys are unique and lookup
takes the first match. -/
inductive JVal where
  | null
  | bool (b : Bool)
  | num (n : Int)
  | str (s : String)
  | obj (fields : List (String × JVal))

/-- Lookup of a key in a JSON object's field list (Python `d[k]` / `d.get(k)`). -/
def jlookup : List (String × JVal) → String → Option JVal
  | [], _ => none
  | (k, v) :: rest, key => if k = key then some v else jlookup rest key

/-- Whether a `JVal` is a JSON object (Python `isinstance(x, dict)`). -/
def JVal.isObj : JVal → Bool
  | .obj _ => true
  | _ => false

/-- Transaction direction, `models.py` `TransactionType`. -/
inductive TransactionType where
  | expense
  | income
deriving DecidableEq, Repr

/-- Input transaction record, `models.py` `Transaction`. -/
structure Transaction where
  title : String
  country : String
  type : TransactionType
  comment : Option String := none
deriving DecidableEq, Repr

/-- Error payload `models.py` `ErrorDetail` (the optional `details` dict is
omitted: no claim mentions it). -/
structure ErrorDetail where
  code : String
  message : String
deriving DecidableEq, Repr

/-- Response metadata, `models.py` `ResponseMeta`; only `requestId` is read by
the client code, the remaining fields are omitted. -/
structure ResponseMeta where
  requestId : String
deriving DecidableEq, Repr

/-- Enriched transaction payload, `models.py` `TransactionData`.  The claims
only exercise the `category` field, which pydantic leaves as the raw decoded
JSON value (`category : Any`); the remaining response fields are omitted. -/
structure TransactionData where
  category : JVal := .null

/-- The character-for-character translation of
`TransactionData.get_primary_category_name` (`models.py` lines 341-359) on a
JSON-decoded `category` value.  The two `isinstance(..., CategoryStructure)` /
`isinstance(..., Category)` branches of the source apply only to
programmatically constructed model instances, which never arise from a decoded
API response (pydantic does not coerce an `Any` field), so they have no
counterpart on `JVal` inputs.  The Python function is annotated `-> str` but
returns the raw dict entry, so the model returns `JVal`. -/
def TransactionData.get_primary_category_name (td : TransactionData) : JVal :=
  match td.category with
  | .obj fields =>
    match jlookup fields "primary" with
    | some (.obj pf) => (jlookup pf "name").getD (.str "Unknown")
    | _ =>
      match jlookup fields "name" with
      | some v => v
      | none => .str "Unknown"
  | _ => .str "Unknown"

/-- Complete enrichment payload, `models.py` `EnrichmentData`; entity payloads
stay as raw JSON values since no claim inspects them. -/
structure EnrichmentData where
  transaction : TransactionData
  entities : List JVal := []

/-- Body of a 200 response, `models.py` `EnrichSuccessResponse`.  The source
field named after the Lean keyword for partial results is called `part` here. -/
structure EnrichSuccessResponse where
  success : Bool
  part : Bool
  data : EnrichmentData
  meta : ResponseMeta

/-- Body of a non-200 response, `models.py` `ErrorResponse`. -/
structure ErrorResponse where
  success : Bool
  error : ErrorDetail
  meta : ResponseMeta

/-- Combined per-item result, `models.py` `EnrichmentResult`.  The source field
named after the Lean keyword for partial results is called `part` here. -/
structure EnrichmentResult where
  input : Transaction
  success : Bool
  part : Bool := false
  data : Option EnrichmentData := none
  error : Option ErrorDetail := none
  request_id : Option String := none
  processing_time_ms : Option ℚ := none

/-- Rate limit state parsed from response headers, `models.py` `RateLimitInfo`. -/
structure RateLimitInfo where
  limit : Option Int := none
  remaining : Option Int := none
  reset : Option String := none
  scope : Option String := none
  concurrency_limit : Option Int := none
  concurrency_remaining : Option Int := none
  retry_after_seconds : Option Int := none
deriving DecidableEq, Repr

/-- Strip leading and trailing whitespace from a character list. -/
def pyStripWs (cs : List Char) : List Char :=
  ((cs.dropWhile Char.isWhitespace).reverse.dropWhile Char.isWhitespace).reverse

/-- Accumulator loop reading a decimal digit string. -/
def digitsValGo : List Char → Nat → Option Nat
  | [], acc => some acc
  | c :: rest, acc =>
    if c.isDigit then digitsValGo rest (acc * 10 + (c.toNat - 48)) else none

/-- Value of a non-empty all-digit character list, `none` otherwise. -/
def digitsVal : List Char → Option Nat
  | [] => none
  | cs => digitsValGo cs 0

/-- Python `int(s)` on a string: surrounding whitespace is stripped, an
optional sign is allowed, then decimal digits; any other shape raises
`ValueError`, modelled as `none`.  (Underscore digit grouping, accepted by
CPython, is not modelled; no header in any claim uses it.) -/
def pyInt? (s : String) : Option Int :=
  match pyStripWs s.data with
  | '+' :: rest => (digitsVal rest).map Int.ofNat
  | '-' :: rest => (digitsVal rest).map (fun n => -(Int.ofNat n))
  | cs => (digitsVal cs).map Int.ofNat

/-- Header lookup (the header dict passed to `from_headers`). -/
def headerGet : List (String × String) → String → Option String
  | [], _ => none
  | (k, v) :: rest, key => if k = key then some v else headerGet rest key

/-- The `_int` helper nested in `RateLimitInfo.from_headers` (`models.py`
lines 477-482): `int(headers.get(key, 0))`, returning the value only when it
is strictly positive, and `None` on absence (the default `0` is not positive)
or on a `ValueError`. -/
def rlInt (headers : List (String × String)) (key : String) : Option Int :=
  match headerGet headers key with
  | none => none
  | some s =>
    match pyInt? s with
    | none => none
    | some v => if 0 < v then some v else none

/-- Python truthiness of an optional string: `x or None` maps both `None` and
the empty string to `None`. -/
def strOrNone : Option String → Option String
  | none => none
  | some s => if s = "" then none else some s

/-- Model of `RateLimitInfo.from_headers` (`models.py` lines 474-492). -/
def RateLimitInfo.from_headers (headers : List (String × String)) : RateLimitInfo :=
  { limit := rlInt headers "X-RateLimit-Limit"
    remaining := rlInt headers "X-RateLimit-Remaining"
    reset := strOrNone (headerGet headers "X-RateLimit-Reset")
    scope := strOrNone (headerGet headers "X-RateLimit-Scope")
    concurrency_limit := rlInt headers "X-RateLimit-Concurrency-Limit"
    concurrency_remaining := rlInt headers "X-RateLimit-Concurrency-Remaining"
    retry_after_seconds := rlInt headers "Retry-After" }

/-- Model of `RateLimitInfo.get_reset_timestamp` (`models.py` lines 494-501).  The
stdlib call `datetime.fromisoformat(...).timestamp()` is abstracted as the
parameter `parseTs`, returning `none` where the stdlib would raise. -/
def RateLimitInfo.get_reset_timestamp (parseTs : String → Option ℚ)
    (info : RateLimitInfo) : Option ℚ :=
  match info.reset with
  | none => none
  | some s => parseTs s

/-- The sleeps performed by one call of the pacing gate
`TriqaiClient._wait_for_rate_limit`: the wait-until-reset sleep of the
`remaining == 0` branch, and the inter-request spacing sleep. -/
structure PacingWaits where
  resetSleep : Option ℚ
  spacingSleep : Option ℚ
deriving DecidableEq, Repr

/-- Model of `TriqaiClient._wait_for_rate_limit` (`client.py` lines 113-127), as the
pure computation of the sleeps it performs.  `nowA` and `nowB` are the two
`time.time()` readings, `lastRequestTime` is `self._last_request_time` and
`request_delay` is `self.request_delay`.  The `if reset_ts:` truthiness test
of the source also rejects a parsed timestamp equal to `0.0`. -/
def wait_for_rate_limit (parseTs : String → Option ℚ)
    (info : Option RateLimitInfo) (request_delay : ℚ)
    (nowA nowB lastRequestTime : ℚ) : PacingWaits :=
  let resetSleep : Option ℚ :=
    match info with
    | some i =>
      if i.remaining = some 0 then
        match i.get_reset_timestamp parseTs with
        | some resetTs =>
          if resetTs = 0 then none
          else
            let waitTime := max 0 (resetTs - nowA)
            if 0 < waitTime then some (waitTime + 1/2) else none
        | none => none
      else none
    | none => none
  let elapsed := nowB - lastRequestTime
  let spacingSleep : Option ℚ :=
    if elapsed < request_delay then some (request_delay - elapsed) else none
  ⟨resetSleep, spacingSleep⟩

/-- Client configuration, the constructor arguments of `TriqaiClient` with the
defaults of `client.py` lines 77-98. -/
structure ClientConfig where
  max_retries : Nat := 3
  request_delay : ℚ := 1/10
  timeout : ℚ := 30
  max_concurrent : Nat := 5

/-- Body of an HTTP response as decoded and validated by pydantic: either an
`EnrichSuccessResponse`-shaped body or an `ErrorResponse`-shaped body.
Validating a body against the other model raises a `ValidationError`. -/
inductive Body where
  | ok (b : EnrichSuccessResponse)
  | err (e : ErrorResponse)

/-- An HTTP response: status code and decoded body. -/
structure ApiResponse where
  status : Nat
  body : Body

/-- What one execution of the inner closure `_request_with_retry` up to the
`client.post` call does on the wire: the transport raises
`httpx.TimeoutException`, raises an `httpx.RequestError`, or delivers a
response. -/
inductive AttemptOutcome where
  | timeout
  | requestError (msg : String)
  | response (r : ApiResponse)

/-- What crosses the retry-decorator boundary back into `_make_request`:
a returned response, or one of the exceptions the surrounding `try` block can
see.  `raisedRetryError` models `tenacity.RetryError`; it is listed because
`_make_request` has an `except RetryError` arm (`client.py` lines 202-213),
and `retryExec_no_retryError` below proves the configured decorator never
raises it. -/
inductive RetryOutcome where
  | returned (r : ApiResponse)
  | raisedRateLimited (msg : String)
  | raisedRetryError (lastMsg : String)
  | raisedTimeout
  | raisedRequestError (msg : String)

/-- The backoff wait computed by tenacity's
`wait_exponential(multiplier=1, min=2, max=60)` after the failed attempt
numbered `n` (attempts are numbered from 1):
`max(max(0, min), min(multiplier * exp_base ** (attempt_number - 1), max))`. -/
def waitExp (n : Nat) : Nat := max 2 (min (2 ^ (n - 1)) 60)

/-- The retry loop produced by the decorator
`@retry(retry=retry_if_exception_type(RateLimitError),
stop=stop_after_attempt(max_retries), wait=wait_exponential(multiplier=1,
min=2, max=60), reraise=True)` around `_request_with_retry` (`client.py`
lines 147-169), starting at attempt number `n`.  Per attempt: the transport
outcome `attempt n`; a 429 status raises
`RateLimitError("Rate limit exceeded")`, which is the only retryable
exception; every other exception is re-raised at once; after a retryable
failure, tenacity stops once `attempt_number >= max_retries` and — because
`reraise=True` — re-raises the last exception itself rather than wrapping it
in a `RetryError`; otherwise it sleeps `waitExp n` and re-attempts.  The
second component collects the backoff sleeps performed.

The loop recurses on `remaining`, the number of further attempts the stop
condition still allows: tenacity stops once `attempt_number >= max_retries`,
so at attempt number `n` the slack is `max_retries - n`, and `remaining = 0`
is exactly the stop condition. -/
def retryGo (attempt : Nat → AttemptOutcome) : Nat → Nat → RetryOutcome × List Nat
  | 0, n =>
    match attempt n with
    | .timeout => (.raisedTimeout, [])
    | .requestError m => (.raisedRequestError m, [])
    | .response r =>
      if r.status = 429 then (.raisedRateLimited "Rate limit exceeded", [])
      else (.returned r, [])
  | rem + 1, n =>
    match attempt n with
    | .timeout => (.raisedTimeout, [])
    | .requestError m => (.raisedRequestError m, [])
    | .response r =>
      if r.status = 429 then
        let p := retryGo attempt rem (n + 1)
        (p.1, waitExp n :: p.2)
      else (.returned r, [])

/-- The whole decorated call `_request_with_retry()`: the loop starts at
attempt number 1, whose stop-condition slack is `max_retries - 1`. -/
def retryExec (max_retries : Nat) (attempt : Nat → AttemptOutcome) :
    RetryOutcome × List Nat :=
  retryGo attempt (max_retries - 1) 1

/-- The Python exceptions that can escape `_make_request` (and hence, if
raised inside a batch task, escape `enrich_batch`).  `keyError` models the
`KeyError` a missing index in `results_dict` would raise during the final
reassembly of `enrich_batch`. -/
inductive PyError where
  | authenticationError (msg : String)
  | insufficientCreditsError (msg : String)
  | rateLimitError (msg : String)
  | validationError
  | keyError
deriving DecidableEq, Repr

/-- The `try`/`except` classification of `_make_request` (`client.py` lines
171-233) applied to what crossed the retry boundary.  `elapsedMs` is the
elapsed wall-clock reading `(time.perf_counter() - start_time) * 1000` of the
branch that constructs the result.  A 200 body is validated as
`EnrichSuccessResponse`, any other status as `ErrorResponse`; 401 raises
`AuthenticationError`, 402 raises `InsufficientCreditsError` (neither is
caught here), every other non-200 status becomes a per-item failure result.
The `except RetryError` arm builds the `max_retries_exceeded` failure; the
re-raised `RateLimitError` of the exhausted-retries path matches no `except`
arm and escapes. -/
def makeRequestFrom (cfg : ClientConfig) (txn : Transaction) (elapsedMs : ℚ)
    (out : RetryOutcome) : Except PyError EnrichmentResult :=
  match out with
  | .returned resp =>
    if resp.status = 200 then
      match resp.body with
      | .ok sb =>
        .ok { input := txn, success := true, part := sb.part, data := some sb.data,
              request_id := some sb.meta.requestId, processing_time_ms := some elapsedMs }
      | .err _ => .error .validationError
    else
      match resp.body with
      | .err eb =>
        if resp.status = 401 then .error (.authenticationError eb.error.message)
        else if resp.status = 402 then .error (.insufficientCreditsError eb.error.message)
        else
          .ok { input := txn, success := false, error := some eb.error,
                request_id := some eb.meta.requestId, processing_time_ms := some elapsedMs }
      | .ok _ => .error .validationError
  | .raisedRetryError lastMsg =>
    .ok { input := txn, success := false,
          error := some { code := "max_retries_exceeded",
                          message := "Failed after " ++ toString cfg.max_retries
                            ++ " attempts: " ++ lastMsg },
          processing_time_ms := some elapsedMs }
  | .raisedRateLimited msg => .error (.rateLimitError msg)
  | .raisedTimeout =>
    .ok { input := txn, success := false,
          error := some { code := "timeout",
                          message := "Request timed out after "
                            ++ toString cfg.timeout ++ "s" },
          processing_time_ms := some elapsedMs }
  | .raisedRequestError m =>
    .ok { input := txn, success := false,
          error := some { code := "request_error", message := m },
          processing_time_ms := some elapsedMs }

/-- Model of `TriqaiClient._make_request`: run the decorated retry loop, then classify. -/
def makeRequest (cfg : ClientConfig) (attempt : Nat → AttemptOutcome)
    (txn : Transaction) (elapsedMs : ℚ) : Except PyError EnrichmentResult :=
  makeRequestFrom cfg txn elapsedMs (retryExec cfg.max_retries attempt).1

/-- Mutable state of the `enrich_batch` loop: `results_dict` (a Python dict,
i.e. a partial map from original index to result), the shared `completed`
counter, and the record of `progress_callback(completed, total)` invocations. -/
structure BatchState where
  dict : Nat → Option EnrichmentResult
  completed : Nat
  progress : List (Nat × Nat)

/-- The `for coro in asyncio.as_completed(tasks):` loop of `enrich_batch`
(`client.py` lines 283-294), processing completed tasks in completion order.
Each element `(i, t)` of the order is a finished `process_one` task for
original index `i` and transaction `t`; `attemptOf i` and `elapsedOf i` are
the wire and clock behaviour of that task's `_make_request` call.  An
exception raised by a task propagates out of the loop. -/
def enrichBatchLoop (cfg : ClientConfig) (attemptOf : Nat → Nat → AttemptOutcome)
    (elapsedOf : Nat → ℚ) (total : Nat) :
    List (Nat × Transaction) → BatchState → Except PyError BatchState
  | [], st => .ok st
  | (i, t) :: rest, st =>
    match makeRequest cfg (attemptOf i) t (elapsedOf i) with
    | .error e => .error e
    | .ok r =>
      enrichBatchLoop cfg attemptOf elapsedOf total rest
        { dict := fun j => if j = i then some r else st.dict j
          completed := st.completed + 1
          progress := st.progress ++ [(st.completed + 1, total)] }

/-- The final reassembly `[results_dict[i] for i in range(len(transactions))]`;
a missing key raises `KeyError`, modelled as `none`. -/
def collect (dict : Nat → Option EnrichmentResult) :
    List Nat → Option (List EnrichmentResult)
  | [] => some []
  | i :: rest =>
    match dict i, collect dict rest with
    | some r, some rs => some (r :: rs)
    | _, _ => none

/-- Model of `TriqaiClient.enrich_batch` (`client.py` lines 247-296).  `completionOrder`
is the order in which `asyncio.as_completed` yields the finished
`process_one(client, i, txn)` tasks; a run of the event loop realises exactly
the permutations of `transactions.enum`.  An empty input returns `[]` before
any task, client or callback is created.  The returned pair is the result
list (reassembled by original index) and the sequence of
`progress_callback(completed, total)` invocations. -/
def enrich_batch (cfg : ClientConfig) (attemptOf : Nat → Nat → AttemptOutcome)
    (elapsedOf : Nat → ℚ) (transactions : List Transaction)
    (completionOrder : List (Nat × Transaction)) :
    Except PyError (List EnrichmentResult × List (Nat × Nat)) :=
  if transactions.isEmpty then .ok ([], [])
  else
    match enrichBatchLoop cfg attemptOf elapsedOf transactions.length
        completionOrder ⟨fun _ => none, 0, []⟩ with
    | .error e => .error e
    | .ok st =>
      match collect st.dict (List.range transactions.length) with
      | some results => .ok (results, st.progress)
      | none => .error .keyError

/-! Concrete fixtures used by witnesses and by the evaluation theorems of the
claims about code defects. -/

/-- A sample input transaction. -/
def sampleTxn : Transaction := ⟨"STARBUCKS #123", "US", .expense, none⟩

/-- A sample parsed error body. -/
def sampleErr : ErrorResponse := ⟨false, ⟨"server_error", "boom"⟩, ⟨"req-9"⟩⟩

/-- A wire oracle answering 429 (with a parsed error body) to every attempt. -/
def all429 : Nat → AttemptOutcome := fun _ =>
  .response ⟨429, .err ⟨false, ⟨"rate_limited", "Rate limit exceeded"⟩, ⟨"req-1"⟩⟩⟩

/-- A sample parsed success body. -/
def sampleOk : EnrichSuccessResponse :=
  ⟨true, false, ⟨⟨.obj [("name", .str "Coffee Shops")]⟩, []⟩, ⟨"req-2"⟩⟩

/-- Response headers as sent by the server when the quota is exhausted:
`X-RateLimit-Remaining: 0` with a reset timestamp. -/
def exhaustedHeaders : List (String × String) :=
  [("X-RateLimit-Remaining", "0"), ("X-RateLimit-Reset", "2024-01-01T00:00:10Z")]

/-- A timestamp parser standing in for `datetime.fromisoformat(...)`,
mapping the reset string of `exhaustedHeaders` to the instant `1000`. -/
def sampleParseTs : String → Option ℚ := fun _ => some 1000

/-- Whether an outcome of the retry boundary is a raised `tenacity.RetryError`. -/
def isRetryErrorOutcome : RetryOutcome → Bool
  | .raisedRetryError _ => true
  | _ => false

/-- With `reraise=True`, the retry loop re-raises the last underlying
exception when attempts are exhausted, so a `tenacity.RetryError` never
crosses the decorator boundary: the `except RetryError` arm of
`_make_request` is unreachable. -/
theorem retryGo_no_retryError (a : Nat → AttemptOutcome) :
    ∀ rem n, isRetryErrorOutcome (retryGo a rem n).1 = false := by
  intro rem
  induction rem with
  | zero =>
    intro n
    simp only [retryGo]
    cases a n with
    | timeout => rfl
    | requestError m => rfl
    | response r =>
      by_cases h : r.status = 429 <;> simp [h, isRetryErrorOutcome]
  | succ k ih =>
    intro n
    simp only [retryGo]
    cases a n with
    | timeout => rfl
    | requestError m => rfl
    | response r =>
      by_cases h : r.status = 429 <;> simp [h, isRetryErrorOutcome]
      exact ih (n + 1)

/-- A positive value returned by the `_int` helper always came from a header
that was present and parsed to that strictly positive integer. -/
theorem rlInt_some {H : List (String × String)} {k : String} {v : Int}
    (h : rlInt H k = some v) :
    0 < v ∧ ∃ s, headerGet H k = some s ∧ pyInt? s = some v := by
  unfold rlInt at h
  cases hg : headerGet H k with
  | none => simp [hg] at h
  | some s =>
    simp only [hg] at h
    cases hp : pyInt? s with
    | none => simp [hp] at h
    | some w =>
      simp only [hp] at h
      by_cases hw : 0 < w
      · rw [if_pos hw] at h
        cases h
        exact ⟨hw, s, rfl, hp⟩
      · rw [if_neg hw] at h
        cases h

/-- C10: `RateLimitInfo.from_headers` parses each numeric rate-limit field
through the `_int` helper, and that helper yields `None` whenever the header
is absent, non-numeric, or not strictly positive — in particular a parsed
`RateLimitInfo` never carries `remaining = 0`. -/
theorem c10_from_headers_numeric_fields (H : List (String × String)) :
    ((RateLimitInfo.from_headers H).limit = rlInt H "X-RateLimit-Limit" ∧
     (RateLimitInfo.from_headers H).remaining = rlInt H "X-RateLimit-Remaining" ∧
     (RateLimitInfo.from_headers H).concurrency_limit
       = rlInt H "X-RateLimit-Concurrency-Limit" ∧
     (RateLimitInfo.from_headers H).concurrency_remaining
       = rlInt H "X-RateLimit-Concurrency-Remaining" ∧
     (RateLimitInfo.from_headers H).retry_after_seconds = rlInt H "Retry-After") ∧
    (∀ key, headerGet H key = none → rlInt H key = none) ∧
    (∀ key s, headerGet H key = some s → pyInt? s = none → rlInt H key = none) ∧
    (∀ key s v, headerGet H key = some s → pyInt? s = some v → v ≤ 0 →
      rlInt H key = none) ∧
    (∀ v, (RateLimitInfo.from_headers H).remaining = some v → 0 < v) := by
  refine ⟨⟨rfl, rfl, rfl, rfl, rfl⟩, ?_, ?_, ?_, ?_⟩
  · intro key h
    simp [rlInt, h]
  · intro key s h hp
    simp [rlInt, h, hp]
  · intro key s v h hp hv
    simp only [rlInt, h, hp]
    rw [if_neg (by omega)]
  · intro v hv
    exact (rlInt_some hv).1

/-- Witness for `c10_from_headers_numeric_fields`: the zero-valued, the
non-numeric and the absent header each parse to `None`. -/
theorem c10_from_headers_numeric_fields_witness :
    rlInt [("X-RateLimit-Remaining", "0")] "X-RateLimit-Remaining" = none ∧
    rlInt [("X-RateLimit-Limit", "abc")] "X-RateLimit-Limit" = none ∧
    rlInt [("X-RateLimit-Limit", "5")] "Retry-After" = none := by
  refine ⟨?_, ?_, ?_⟩
  · exact (c10_from_headers_numeric_fields _).2.2.2.1
      "X-RateLimit-Remaining" "0" 0 rfl rfl (by omega)
  · exact (c10_from_headers_numeric_fields _).2.2.1 "X-RateLimit-Limit" "abc" rfl rfl
  · exact (c10_from_headers_numeric_fields _).2.1 "Retry-After" rfl

/-- C5: evaluation at the failing input.  A response announcing an exhausted
quota (`X-RateLimit-Remaining: 0` plus a parseable reset timestamp) is parsed
to `remaining = None`, so on the next dispatch the pacing gate's
wait-until-reset branch is skipped and only the inter-request spacing sleep
happens; had the stored state carried `remaining = 0`, the very same gate
would have slept `max(0, resetTime - now) + 0.5` as the claim describes. -/
theorem c5_zero_remaining_branch_not_taken :
    (RateLimitInfo.from_headers exhaustedHeaders).remaining = none ∧
    wait_for_rate_limit sampleParseTs
      (some (RateLimitInfo.from_headers exhaustedHeaders))
      (1/10) 990 990 990 = ⟨none, some (1/10)⟩ ∧
    wait_for_rate_limit sampleParseTs
      (some { RateLimitInfo.from_headers exhaustedHeaders with remaining := some 0 })
      (1/10) 990 990 990 = ⟨some (21/2), some (1/10)⟩ := by
  have h : RateLimitInfo.from_headers exhaustedHeaders =
      { remaining := none, reset := some "2024-01-01T00:00:10Z" } := by rfl
  refine ⟨by rw [h], ?_, ?_⟩
  · rw [h]
    simp [wait_for_rate_limit, RateLimitInfo.get_reset_timestamp]
  · rw [h]
    simp [wait_for_rate_limit, RateLimitInfo.get_reset_timestamp, sampleParseTs]
    norm_num

/-- C2: evaluation at the failing input.  When every attempt yields 429, the
decorator — configured with `reraise=True` — re-raises the last
`RateLimitError` instead of a `RetryError`; no `except` arm of
`_make_request` matches it, so it escapes and aborts the whole batch, while
the `except RetryError` arm that would have produced the
`max_retries_exceeded` per-item failure (shown in the last conjunct, and
proved unreachable by `retryGo_no_retryError`) is dead code. -/
theorem c2_retry_exhaustion_escapes :
    (retryExec 3 all429).1 = .raisedRateLimited "Rate limit exceeded" ∧
    makeRequest {} all429 sampleTxn 5 =
      .error (.rateLimitError "Rate limit exceeded") ∧
    enrich_batch {} (fun _ => all429) (fun _ => 5) [sampleTxn] [(0, sampleTxn)] =
      .error (.rateLimitError "Rate limit exceeded") ∧
    makeRequestFrom {} sampleTxn 5 (.raisedRetryError "Rate limit exceeded") =
      .ok { input := sampleTxn, success := false,
            error := some { code := "max_retries_exceeded",
                            message := "Failed after 3 attempts: Rate limit exceeded" },
            processing_time_ms := some 5 } :=
  ⟨rfl, rfl, rfl, rfl⟩

/-- C4: evaluation of the retry wrapper.  Only 429 responses are retried
(timeouts and transport errors cross the boundary at once, with no backoff
sleep); `max_retries = 3` allows three attempts, hence two sleeps, which are
non-decreasing and lie within the floor 2 and ceiling 60; but exhaustion
collapses to the re-raised `RateLimitError`, not to a `MaxRetriesExceeded`
per-item failure. -/
theorem c4_retry_policy_evaluation :
    retryExec 3 all429 = (.raisedRateLimited "Rate limit exceeded", [2, 2]) ∧
    retryExec 3 (fun _ => .timeout) = (.raisedTimeout, []) ∧
    retryExec 3 (fun _ => .requestError "connection reset")
      = (.raisedRequestError "connection reset", []) ∧
    retryExec 3 (fun n => if n < 3 then all429 n else .response ⟨200, .ok sampleOk⟩)
      = (.returned ⟨200, .ok sampleOk⟩, [2, 2]) ∧
    isRetryErrorOutcome (retryExec 3 all429).1 = false ∧
    waitExp 1 = 2 ∧ waitExp 2 = 2 ∧ waitExp 3 = 4 ∧ waitExp 7 = 60 :=
  ⟨rfl, rfl, rfl, rfl, rfl, rfl, rfl, rfl, rfl⟩

/-- C7: the category-name normalization of `get_primary_category_name`: a
flat `{name, mcc}` payload and a nested `{primary: {name}}` payload yield the
same name, while a missing category, a non-object category, or an object
without a usable `name` all degrade to `"Unknown"` without raising. -/
theorem c7_primary_category_name_normalization (X : String) (m : Int)
    (c : JVal) (hc : c.isObj = false)
    (fs : List (String × JVal)) (hp : jlookup fs "primary" = none)
    (hn : jlookup fs "name" = none) :
    TransactionData.get_primary_category_name
      ⟨.obj [("name", .str X), ("mcc", .num m)]⟩ = .str X ∧
    TransactionData.get_primary_category_name
      ⟨.obj [("primary", .obj [("name", .str X)])]⟩ = .str X ∧
    TransactionData.get_primary_category_name ⟨.null⟩ = .str "Unknown" ∧
    TransactionData.get_primary_category_name ⟨c⟩ = .str "Unknown" ∧
    TransactionData.get_primary_category_name ⟨.obj fs⟩ = .str "Unknown" := by
  refine ⟨rfl, rfl, rfl, ?_, ?_⟩
  · cases c with
    | obj fields => cases hc
    | null => rfl
    | bool b => rfl
    | num n => rfl
    | str s => rfl
  · simp [TransactionData.get_primary_category_name, hp, hn]

/-- Witness for `c7_primary_category_name_normalization` at a concrete
category value, a concrete non-object and a concrete keyless object. -/
theorem c7_primary_category_name_normalization_witness :
    TransactionData.get_primary_category_name
      ⟨.obj [("name", .str "Coffee Shops"), ("mcc", .num 5411)]⟩
        = .str "Coffee Shops" ∧
    TransactionData.get_primary_category_name
      ⟨.obj [("primary", .obj [("name", .str "Coffee Shops")])]⟩
        = .str "Coffee Shops" ∧
    TransactionData.get_primary_category_name ⟨.null⟩ = .str "Unknown" ∧
    TransactionData.get_primary_category_name ⟨.num 3⟩ = .str "Unknown" ∧
    TransactionData.get_primary_category_name ⟨.obj [("mcc", .num 1)]⟩
      = .str "Unknown" :=
  c7_primary_category_name_normalization "Coffee Shops" 5411 (.num 3) rfl
    [("mcc", .num 1)] rfl rfl

/-- C9: an empty transaction list short-circuits `enrich_batch`: the result
is the empty list, no progress callback fires, and the outcome does not
depend on the wire or clock oracles at all — no request is ever made. -/
theorem c9_empty_batch (cfg : ClientConfig) (attemptOf : Nat → Nat → AttemptOutcome)
    (elapsedOf : Nat → ℚ) (ord : List (Nat × Transaction)) :
    enrich_batch cfg attemptOf elapsedOf [] ord = .ok ([], []) :=
  rfl

/-- Every branch of `_make_request` that constructs a result puts the very
transaction it was called with into the `input` field. -/
theorem makeRequestFrom_input {cfg : ClientConfig} {txn : Transaction} {e : ℚ}
    {out : RetryOutcome} {r : EnrichmentResult}
    (h : makeRequestFrom cfg txn e out = .ok r) : r.input = txn := by
  cases out with
  | returned resp =>
    simp only [makeRequestFrom] at h
    by_cases h200 : resp.status = 200
    · rw [if_pos h200] at h
      cases hb : resp.body with
      | ok sb => rw [hb] at h; cases h; rfl
      | err eb => rw [hb] at h; cases h
    · rw [if_neg h200] at h
      cases hb : resp.body with
      | ok sb => rw [hb] at h; cases h
      | err eb =>
        rw [hb] at h
        simp only [] at h
        by_cases h401 : resp.status = 401
        · rw [if_pos h401] at h; cases h
        · rw [if_neg h401] at h
          by_cases h402 : resp.status = 402
          · rw [if_pos h402] at h; cases h
          · rw [if_neg h402] at h; cases h; rfl
  | raisedRateLimited m => simp only [makeRequestFrom] at h; cases h
  | raisedRetryError m => simp only [makeRequestFrom] at h; cases h; rfl
  | raisedTimeout => simp only [makeRequestFrom] at h; cases h; rfl
  | raisedRequestError m => simp only [makeRequestFrom] at h; cases h; rfl

/-- Version of `makeRequestFrom_input` stated on `makeRequest`. -/
theorem makeRequest_input {cfg : ClientConfig} {a : Nat → AttemptOutcome}
    {txn : Transaction} {e : ℚ} {r : EnrichmentResult}
    (h : makeRequest cfg a txn e = .ok r) : r.input = txn :=
  makeRequestFrom_input h

/-- C6: every result `_make_request` constructs carries the payload exactly
when it succeeded, the error detail exactly when it failed, and an elapsed
processing time in every branch — the 200 branch, the structured-error
branch, the (dead) retry-exhaustion branch, the timeout branch and the
transport-error branch alike. -/
theorem c6_result_field_invariants (cfg : ClientConfig) (txn : Transaction)
    (e : ℚ) (out : RetryOutcome) (r : EnrichmentResult)
    (h : makeRequestFrom cfg txn e out = .ok r) :
    r.data.isSome = r.success ∧ r.error.isSome = !r.success ∧
    r.processing_time_ms.isSome = true := by
  cases out with
  | returned resp =>
    simp only [makeRequestFrom] at h
    by_cases h200 : resp.status = 200
    · rw [if_pos h200] at h
      cases hb : resp.body with
      | ok sb => rw [hb] at h; cases h; exact ⟨rfl, rfl, rfl⟩
      | err eb => rw [hb] at h; cases h
    · rw [if_neg h200] at h
      cases hb : resp.body with
      | ok sb => rw [hb] at h; cases h
      | err eb =>
        rw [hb] at h
        simp only [] at h
        by_cases h401 : resp.status = 401
        · rw [if_pos h401] at h; cases h
        · rw [if_neg h401] at h
          by_cases h402 : resp.status = 402
          · rw [if_pos h402] at h; cases h
          · rw [if_neg h402] at h; cases h; exact ⟨rfl, rfl, rfl⟩
  | raisedRateLimited m => simp only [makeRequestFrom] at h; cases h
  | raisedRetryError m => simp only [makeRequestFrom] at h; cases h; exact ⟨rfl, rfl, rfl⟩
  | raisedTimeout => simp only [makeRequestFrom] at h; cases h; exact ⟨rfl, rfl, rfl⟩
  | raisedRequestError m => simp only [makeRequestFrom] at h; cases h; exact ⟨rfl, rfl, rfl⟩

/-- Witness for `c6_result_field_invariants` on the concrete 200 response. -/
theorem c6_result_field_invariants_witness :
    (EnrichmentResult.data ⟨sampleTxn, true, false, some sampleOk.data, none,
        some "req-2", some 5⟩).isSome
      = (EnrichmentResult.success ⟨sampleTxn, true, false, some sampleOk.data,
          none, some "req-2", some 5⟩) ∧
    (EnrichmentResult.error ⟨sampleTxn, true, false, some sampleOk.data, none,
        some "req-2", some 5⟩).isSome
      = !(EnrichmentResult.success ⟨sampleTxn, true, false, some sampleOk.data,
          none, some "req-2", some 5⟩) ∧
    (EnrichmentResult.processing_time_ms ⟨sampleTxn, true, false,
        some sampleOk.data, none, some "req-2", some 5⟩).isSome = true :=
  c6_result_field_invariants {} sampleTxn 5 (.returned ⟨200, .ok sampleOk⟩) _ rfl

/-- C3: a parsed 401 body raises `AuthenticationError` and a parsed 402 body
raises `InsufficientCreditsError` — neither is wrapped into a per-item
result, and inside a batch either aborts the whole run — while any other
status except 200 and 429 that reaches classification becomes a per-item
failure carrying the parsed structured error body. -/
theorem c3_fatal_statuses_propagate (cfg : ClientConfig) (txn : Transaction)
    (e : ℚ) (eb : ErrorResponse) (s : Nat)
    (hs200 : s ≠ 200) (hs401 : s ≠ 401) (hs402 : s ≠ 402) (_hs429 : s ≠ 429) :
    makeRequestFrom cfg txn e (.returned ⟨401, .err eb⟩) =
      .error (.authenticationError eb.error.message) ∧
    makeRequestFrom cfg txn e (.returned ⟨402, .err eb⟩) =
      .error (.insufficientCreditsError eb.error.message) ∧
    makeRequestFrom cfg txn e (.returned ⟨s, .err eb⟩) =
      .ok { input := txn, success := false, error := some eb.error,
            request_id := some eb.meta.requestId, processing_time_ms := some e } ∧
    (∀ (attemptOf : Nat → Nat → AttemptOutcome) (elapsedOf : Nat → ℚ)
        (rest : List (Nat × Transaction)),
      attemptOf 0 1 = .response ⟨401, .err eb⟩ →
      enrich_batch cfg attemptOf elapsedOf [txn] ((0, txn) :: rest) =
        .error (.authenticationError eb.error.message)) := by
  refine ⟨rfl, rfl, ?_, ?_⟩
  · simp [makeRequestFrom, hs200, hs401, hs402]
  · intro attemptOf elapsedOf rest h401
    have hretry : retryExec cfg.max_retries (attemptOf 0) =
        (.returned ⟨401, .err eb⟩, []) := by
      unfold retryExec
      cases hrem : cfg.max_retries - 1 with
      | zero => simp [retryGo, h401]
      | succ k => simp [retryGo, h401]
    have hmk : makeRequest cfg (attemptOf 0) txn (elapsedOf 0) =
        .error (.authenticationError eb.error.message) := by
      unfold makeRequest
      rw [hretry]
      rfl
    unfold enrich_batch enrichBatchLoop
    rw [hmk]
    rfl

/-- Witness for `c3_fatal_statuses_propagate`: the 500 per-item failure and
the batch-aborting 401. -/
theorem c3_fatal_statuses_propagate_witness :
    makeRequestFrom {} sampleTxn 5 (.returned ⟨500, .err sampleErr⟩) =
      .ok { input := sampleTxn, success := false, error := some sampleErr.error,
            request_id := some sampleErr.meta.requestId,
            processing_time_ms := some 5 } ∧
    enrich_batch {} (fun _ _ => .response ⟨401, .err sampleErr⟩) (fun _ => 5)
      [sampleTxn] [(0, sampleTxn)] =
      .error (.authenticationError sampleErr.error.message) := by
  have h := c3_fatal_statuses_propagate {} sampleTxn 5 sampleErr 500
    (by omega) (by omega) (by omega) (by omega)
  exact ⟨h.2.2.1, h.2.2.2 (fun _ _ => .response ⟨401, .err sampleErr⟩)
    (fun _ => 5) [] rfl⟩

/-- Indices of tasks a run of the loop never processed keep their
`results_dict` entry untouched. -/
theorem enrichBatchLoop_preserve (cfg : ClientConfig)
    (attemptOf : Nat → Nat → AttemptOutcome) (elapsedOf : Nat → ℚ) (total : Nat) :
    ∀ (ord : List (Nat × Transaction)) (st st' : BatchState) (j : Nat),
      (∀ t, (j, t) ∉ ord) →
      enrichBatchLoop cfg attemptOf elapsedOf total ord st = .ok st' →
      st'.dict j = st.dict j := by
  intro ord
  induction ord with
  | nil =>
    intro st st' j _ h
    simp only [enrichBatchLoop] at h
    cases h
    rfl
  | cons p rest ih =>
    intro st st' j hj h
    obtain ⟨i, t⟩ := p
    simp only [enrichBatchLoop] at h
    cases hm : makeRequest cfg (attemptOf i) t (elapsedOf i) with
    | error e => simp only [hm] at h; cases h
    | ok r =>
      simp only [hm] at h
      have hji : j ≠ i := by
        intro hji
        exact hj t (by rw [hji]; exact List.mem_cons_self _ _)
      have hrest := ih _ st' j (fun t' ht' => hj t' (List.mem_cons_of_mem _ ht')) h
      rw [hrest]
      simp [hji]

/-- A task processed by a run of the loop whose original index occurs only
once leaves exactly its own successful result at its index. -/
theorem enrichBatchLoop_mem (cfg : ClientConfig)
    (attemptOf : Nat → Nat → AttemptOutcome) (elapsedOf : Nat → ℚ) (total : Nat) :
    ∀ (ord : List (Nat × Transaction)) (st st' : BatchState) (j : Nat)
      (t : Transaction),
      (ord.map Prod.fst).Nodup → (j, t) ∈ ord →
      enrichBatchLoop cfg attemptOf elapsedOf total ord st = .ok st' →
      ∃ r, makeRequest cfg (attemptOf j) t (elapsedOf j) = .ok r ∧
        st'.dict j = some r := by
  intro ord
  induction ord with
  | nil =>
    intro st st' j t _ hmem _
    cases hmem
  | cons p rest ih =>
    intro st st' j t hnd hmem h
    obtain ⟨i, ti⟩ := p
    have hnd' : (∀ x : Transaction, (i, x) ∉ rest) ∧ (rest.map Prod.fst).Nodup := by
      simpa using hnd
    simp only [enrichBatchLoop] at h
    cases hm : makeRequest cfg (attemptOf i) ti (elapsedOf i) with
    | error e => simp only [hm] at h; cases h
    | ok r =>
      simp only [hm] at h
      rcases List.mem_cons.mp hmem with heq | hrest
      · cases heq
        have hpres := enrichBatchLoop_preserve cfg attemptOf elapsedOf total
          rest _ st' j hnd'.1 h
        refine ⟨r, hm, ?_⟩
        rw [hpres]
        simp
      · exact ih _ st' j t hnd'.2 hrest h

/-- The loop appends one progress record per processed task, with the
completed counter incrementing by one each time. -/
theorem enrichBatchLoop_progress (cfg : ClientConfig)
    (attemptOf : Nat → Nat → AttemptOutcome) (elapsedOf : Nat → ℚ) (total : Nat) :
    ∀ (ord : List (Nat × Transaction)) (st st' : BatchState),
      enrichBatchLoop cfg attemptOf elapsedOf total ord st = .ok st' →
      st'.progress = st.progress
        ++ (List.range' (st.completed + 1) ord.length).map (fun k => (k, total)) := by
  intro ord
  induction ord with
  | nil =>
    intro st st' h
    simp only [enrichBatchLoop] at h
    cases h
    simp
  | cons p rest ih =>
    intro st st' h
    obtain ⟨i, t⟩ := p
    simp only [enrichBatchLoop] at h
    cases hm : makeRequest cfg (attemptOf i) t (elapsedOf i) with
    | error e => simp only [hm] at h; cases h
    | ok r =>
      simp only [hm] at h
      have hrec := ih _ st' h
      rw [hrec]
      simp [List.range'_succ]

/-- Soundness of the final reassembly: a successful `collect` yields one
entry per requested index, each equal to the stored dict entry. -/
theorem collect_spec (dict : Nat → Option EnrichmentResult) :
    ∀ (l : List Nat) (res : List EnrichmentResult),
      collect dict l = some res →
      res.length = l.length ∧
      ∀ (k i : Nat), l[k]? = some i → ∃ r, res[k]? = some r ∧ dict i = some r := by
  intro l
  induction l with
  | nil =>
    intro res h
    simp only [collect] at h
    cases h
    refine ⟨rfl, ?_⟩
    intro k i hk
    simp at hk
  | cons i rest ih =>
    intro res h
    simp only [collect] at h
    cases hd : dict i with
    | none => simp only [hd] at h; cases h
    | some r =>
      simp only [hd] at h
      cases hc : collect dict rest with
      | none => simp only [hc] at h; cases h
      | some rs =>
        simp only [hc] at h
        cases h
        obtain ⟨hlen, hik⟩ := ih rs hc
        refine ⟨by simp [hlen], ?_⟩
        intro k j hk
        cases k with
        | zero =>
          simp only [List.getElem?_cons_zero, Option.some.injEq] at hk
          subst hk
          exact ⟨r, by simp, hd⟩
        | succ k' =>
          simp only [List.getElem?_cons_succ] at hk ⊢
          exact hik k' j hk

/-- C1: for every input list, every completion order of the concurrent
tasks, and every wire behaviour under which the batch returns normally,
`enrich_batch` yields exactly one result per transaction and the result at
position `i` wraps the input transaction at position `i`. -/
theorem c1_batch_order_preservation (cfg : ClientConfig)
    (attemptOf : Nat → Nat → AttemptOutcome) (elapsedOf : Nat → ℚ)
    (txns : List Transaction) (ord : List (Nat × Transaction))
    (results : List EnrichmentResult) (prog : List (Nat × Nat))
    (hperm : ord.Perm txns.enum)
    (hok : enrich_batch cfg attemptOf elapsedOf txns ord = .ok (results, prog)) :
    results.length = txns.length ∧
    ∀ i, i < txns.length →
      ∃ r, results[i]? = some r ∧ txns[i]? = some r.input := by
  by_cases hemp : txns.isEmpty = true
  · have htxns : txns = [] := List.isEmpty_iff.mp hemp
    subst htxns
    have hok2 : (Except.ok ([], []) : Except PyError _) = .ok (results, prog) := hok
    cases hok2
    exact ⟨rfl, fun i hi => absurd hi (by simp)⟩
  · unfold enrich_batch at hok
    rw [if_neg hemp] at hok
    cases hloop : enrichBatchLoop cfg attemptOf elapsedOf txns.length ord
        ⟨fun _ => none, 0, []⟩ with
    | error e => simp only [hloop] at hok; cases hok
    | ok st =>
      simp only [hloop] at hok
      cases hcol : collect st.dict (List.range txns.length) with
      | none => simp only [hcol] at hok; cases hok
      | some res =>
        simp only [hcol] at hok
        cases hok
        obtain ⟨hlen, hget⟩ := collect_spec st.dict (List.range txns.length) results hcol
        have hndord : (ord.map Prod.fst).Nodup :=
          ((hperm.map Prod.fst).nodup_iff).mpr (List.nodup_enum_map_fst txns)
        refine ⟨by simpa using hlen, ?_⟩
        intro i hi
        have henum : (i, txns.get ⟨i, hi⟩) ∈ txns.enum := by
          rw [List.mk_mem_enum_iff_getElem?]
          simp [List.getElem?_eq_getElem hi]
        have hmemord : (i, txns.get ⟨i, hi⟩) ∈ ord := hperm.mem_iff.mpr henum
        obtain ⟨r, hmk, hdict⟩ := enrichBatchLoop_mem cfg attemptOf elapsedOf
          txns.length ord _ st i (txns.get ⟨i, hi⟩) hndord hmemord hloop
        have hri : (List.range txns.length)[i]? = some i := by simp [hi]
        obtain ⟨r', hres, hd'⟩ := hget i i hri
        rw [hdict] at hd'
        cases hd'
        refine ⟨r, hres, ?_⟩
        rw [makeRequest_input hmk]
        simp [List.getElem?_eq_getElem hi]

/-- A second sample transaction for batch fixtures. -/
def sampleTxn2 : Transaction := ⟨"NETFLIX.COM", "US", .expense, some "monthly"⟩

/-- A wire oracle answering the sample 200 success to every attempt. -/
def okAttempt : Nat → Nat → AttemptOutcome := fun _ _ => .response ⟨200, .ok sampleOk⟩

/-- A concrete two-transaction batch whose tasks complete in reverse order. -/
def sampleBatchOut : List EnrichmentResult × List (Nat × Nat) :=
  match enrich_batch {} okAttempt (fun _ => 5) [sampleTxn, sampleTxn2]
      [(1, sampleTxn2), (0, sampleTxn)] with
  | .ok p => p
  | .error _ => ([], [])

/-- Witness for `c1_batch_order_preservation` on the concrete reversed-order
batch. -/
theorem c1_batch_order_preservation_witness :
    sampleBatchOut.1.length = 2 ∧
    (∃ r, sampleBatchOut.1[0]? = some r ∧
      [sampleTxn, sampleTxn2][0]? = some r.input) ∧
    (∃ r, sampleBatchOut.1[1]? = some r ∧
      [sampleTxn, sampleTxn2][1]? = some r.input) := by
  have h := c1_batch_order_preservation {} okAttempt (fun _ => 5)
    [sampleTxn, sampleTxn2] [(1, sampleTxn2), (0, sampleTxn)]
    sampleBatchOut.1 sampleBatchOut.2 (List.Perm.swap _ _ _) rfl
  exact ⟨h.1, h.2 0 (by simp), h.2 1 (by simp)⟩

/-- C8: whenever a batch over `N` transactions returns normally, the
progress callback record is exactly `(1, N), (2, N), ..., (N, N)`: one
invocation per completed task, total always `N`, completed strictly
increasing. -/
theorem c8_progress_callback_sequence (cfg : ClientConfig)
    (attemptOf : Nat → Nat → AttemptOutcome) (elapsedOf : Nat → ℚ)
    (txns : List Transaction) (ord : List (Nat × Transaction))
    (results : List EnrichmentResult) (prog : List (Nat × Nat))
    (hperm : ord.Perm txns.enum)
    (hok : enrich_batch cfg attemptOf elapsedOf txns ord = .ok (results, prog)) :
    prog = (List.range' 1 txns.length).map (fun k => (k, txns.length)) := by
  by_cases hemp : txns.isEmpty = true
  · have htxns : txns = [] := List.isEmpty_iff.mp hemp
    subst htxns
    have hok2 : (Except.ok ([], []) : Except PyError _) = .ok (results, prog) := hok
    cases hok2
    rfl
  · unfold enrich_batch at hok
    rw [if_neg hemp] at hok
    cases hloop : enrichBatchLoop cfg attemptOf elapsedOf txns.length ord
        ⟨fun _ => none, 0, []⟩ with
    | error e => simp only [hloop] at hok; cases hok
    | ok st =>
      simp only [hloop] at hok
      cases hcol : collect st.dict (List.range txns.length) with
      | none => simp only [hcol] at hok; cases hok
      | some res =>
        simp only [hcol] at hok
        cases hok
        have hp := enrichBatchLoop_progress cfg attemptOf elapsedOf txns.length
          ord _ st hloop
        have hlen : ord.length = txns.length := by
          rw [hperm.length_eq, List.enum_length]
        simpa [hlen] using hp

/-- Witness for `c8_progress_callback_sequence` on the concrete
reversed-order batch. -/
theorem c8_progress_callback_sequence_witness :
    sampleBatchOut.2 = (List.range' 1 2).map (fun k => (k, 2)) := by
  have h := c8_progress_callback_sequence {} okAttempt (fun _ => 5)
    [sampleTxn, sampleTxn2] [(1, sampleTxn2), (0, sampleTxn)]
    sampleBatchOut.1 sampleBatchOut.2 (List.Perm.swap _ _ _) rfl
  exact h

end Enricher
